import Mathlib

/-!
# Verification of the chess rules engine in `src/main.cpp`

Shallow embedding of the move-legality and board-mutation core of the
repository's chess program (classes `ChessPiece` and `ChessBoard`).

Coordinate convention, taken from the source: a scene position `(x, y)` maps
to the square `(row, col) = (y / 50, x / 50)`; `setupPieces` places white
pieces on rows 0 and 1 and black pieces on rows 6 and 7.  The board is
modelled as a function from integer coordinates to an optional piece: the
scene is a plane, `scene->itemAt` at a square's centre returns the piece on
that square (or nothing), and nothing in `isValidMove`/`movePiece` bounds-checks
coordinates, so coordinates are `Int` as in the C++ (`int`).
-/

/-- `enum class PieceType` from the source. -/
inductive PieceType where
  | Pawn | Rook | Knight | Bishop | Queen | King
deriving DecidableEq, Repr

/-- The logical content of class `ChessPiece`: its `pieceType()` and
`isWhitePiece()` attributes (position is carried by the board mapping). -/
structure ChessPiece where
  pieceType : PieceType
  isWhitePiece : Bool
deriving DecidableEq, Repr

/-- The scene's piece content: which piece, if any, sits on square
`(row, col)`.  At most one piece per square (the program's invariant). -/
abbrev Board := Int → Int → Option ChessPiece

/-- Direction of one axis of the walk in `isPathBlocked`:
`(end > start) ? 1 : (end < start) ? -1 : 0`. -/
def signDir (s e : Int) : Int :=
  if e > s then 1 else if e < s then -1 else 0

/-- The `while` loop of `ChessBoard::isPathBlocked`, made total with a fuel
parameter: `none` models the loop not having finished within `fuel`
iterations (on non-aligned inputs the C++ loop never terminates).  Each
iteration first tests the exit condition `currentRow == endRow && currentCol
== endCol` (returning `false`), then tests whether a piece occupies the
current square (returning `true`), then steps by `(dR, dC)`. -/
def pathWalk (b : Board) (endR endC dR dC : Int) : Nat → Int → Int → Option Bool
  | 0, _, _ => none
  | fuel + 1, r, c =>
    if r = endR ∧ c = endC then some false
    else
      match b r c with
      | some _ => some true
      | none => pathWalk b endR endC dR dC fuel (r + dR) (c + dC)

/-- Fuel sufficient for the walk whenever the two squares are aligned
(same row, same column, or same diagonal): the Chebyshev distance. -/
def pathFuel (startR startC endR endC : Int) : Nat :=
  max (endR - startR).natAbs (endC - startC).natAbs

/-- `ChessBoard::isPathBlocked` with the loop's possible divergence made
explicit: `some b` when the loop returns `b`, `none` when it diverges. -/
def isPathBlockedWalk (b : Board) (startR startC endR endC : Int) : Option Bool :=
  if startR = endR ∧ startC = endC then some false
  else
    pathWalk b endR endC (signDir startR endR) (signDir startC endC)
      (pathFuel startR startC endR endC)
      (startR + signDir startR endR) (startC + signDir startC endC)

/-- `ChessBoard::isPathBlocked` as the `Bool` the callers see.  The default
for the divergent case is arbitrary; every call site in the program passes
aligned squares (theorem `pathBlocked_terminates`), so it is never used. -/
def isPathBlocked (b : Board) (startR startC endR endC : Int) : Bool :=
  (isPathBlockedWalk b startR startC endR endC).getD true

/-- `ChessBoard::isValidMoveWhitePawn`.  `curR`/`curC` are
`piece->pos().y() / 50` and `piece->pos().x() / 50`.  First branch: forward
movement without capture (`colDiff == 0 && !destinationPiece`, one square if
`rowDiff == 1`, two squares if `rowDiff == 2 && currentRow == 6` with an
unblocked path); second branch: diagonal capture
(`abs(colDiff) == 1 && rowDiff == -1` onto an opposite-colour piece). -/
def isValidMoveWhitePawn (b : Board) (p : ChessPiece) (curR curC newR newC : Int) : Bool :=
  let rowDiff := newR - curR
  let colDiff := newC - curC
  let destinationPiece := b newR newC
  if colDiff = 0 ∧ destinationPiece = none ∧
      (rowDiff = 1 ∨
        (rowDiff = 2 ∧ curR = 6 ∧ isPathBlocked b curR curC newR newC = false)) then
    true
  else if colDiff.natAbs = 1 ∧ rowDiff = -1 ∧
      destinationPiece.any (fun q => q.isWhitePiece != p.isWhitePiece) then
    true
  else
    false

/-- `ChessBoard::isValidMoveBlackPawn`: mirror of the white-pawn rule with
forward `rowDiff == -1`, double move `rowDiff == -2 && currentRow == 1`, and
capture `abs(colDiff) == 1 && rowDiff == 1`. -/
def isValidMoveBlackPawn (b : Board) (p : ChessPiece) (curR curC newR newC : Int) : Bool :=
  let rowDiff := newR - curR
  let colDiff := newC - curC
  let destinationPiece := b newR newC
  if colDiff = 0 ∧ destinationPiece = none ∧
      (rowDiff = -1 ∨
        (rowDiff = -2 ∧ curR = 1 ∧ isPathBlocked b curR curC newR newC = false)) then
    true
  else if colDiff.natAbs = 1 ∧ rowDiff = 1 ∧
      destinationPiece.any (fun q => q.isWhitePiece != p.isWhitePiece) then
    true
  else
    false

/-- `ChessBoard::isValidMove`.  In order, as in the source: reject the null
move; reject a destination holding a same-colour piece; then dispatch on
`piece->pieceType()`.  Note the Rook case guards its path check with the
signed `rowDiff > 1 || colDiff > 1`, exactly as written in the source. -/
def isValidMove (b : Board) (p : ChessPiece) (curR curC newR newC : Int) : Bool :=
  if newR = curR ∧ newC = curC then false
  else
    let rowDiff := newR - curR
    let colDiff := newC - curC
    let absRowDiff := rowDiff.natAbs
    let absColDiff := colDiff.natAbs
    let destinationPiece := b newR newC
    if destinationPiece.any (fun q => q.isWhitePiece == p.isWhitePiece) then false
    else
      match p.pieceType with
      | PieceType.Pawn =>
        if p.isWhitePiece then isValidMoveWhitePawn b p curR curC newR newC
        else isValidMoveBlackPawn b p curR curC newR newC
      | PieceType.Rook =>
        if newR ≠ curR ∧ newC ≠ curC then false
        else if (rowDiff > 1 ∨ colDiff > 1) ∧ isPathBlocked b curR curC newR newC = true then
          false
        else true
      | PieceType.Knight =>
        if (absRowDiff = 2 ∧ absColDiff = 1) ∨ (absRowDiff = 1 ∧ absColDiff = 2) then true
        else false
      | PieceType.Bishop =>
        if absRowDiff = absColDiff ∧ isPathBlocked b curR curC newR newC = false then true
        else false
      | PieceType.Queen =>
        if (absRowDiff = absColDiff ∨ rowDiff = 0 ∨ colDiff = 0) ∧
            isPathBlocked b curR curC newR newC = false then true
        else false
      | PieceType.King =>
        if absRowDiff ≤ 1 ∧ absColDiff ≤ 1 ∧ 0 < absRowDiff + absColDiff ∧
            isPathBlocked b curR curC newR newC = false then true
        else false

/-- `ChessBoard::isPawnPromotion`: a Pawn whose destination row is 0 or 7,
regardless of colour. -/
def isPawnPromotion (p : ChessPiece) (newRow : Int) : Bool :=
  if p.pieceType = PieceType.Pawn ∧ (newRow = 0 ∨ newRow = 7) then true else false

/-- The capture loop of `ChessBoard::movePiece`: among the items at the
destination square, an opposite-colour piece is removed (at most one piece
occupies a square, so the loop's `break` after the first hit is the single
`Option` case here); a same-colour occupant is left in place. -/
def capturedRemoved (b : Board) (p : ChessPiece) (newR newC : Int) : Board :=
  fun r c =>
    if r = newR ∧ c = newC then
      match b r c with
      | some q => if q.isWhitePiece ≠ p.isWhitePiece then none else some q
      | none => none
    else b r c

/-- `ChessBoard::promotePawn`: the pawn (still at its source square, since
`setPos` has not run) is removed from the scene and a Queen of the same
colour is added at `(newCol * 50, newRow * 50)`, i.e. square `(newR, newC)`. -/
def promotePawn (b : Board) (p : ChessPiece) (curR curC newR newC : Int) : Board :=
  fun r c =>
    if r = curR ∧ c = curC then none
    else if r = newR ∧ c = newC then some ⟨PieceType.Queen, p.isWhitePiece⟩
    else b r c

/-- `ChessBoard::movePiece`: validate, and on success remove a captured
opposite-colour piece at the destination, then either promote (Pawn landing
on row 0 or 7) or relocate the piece via `setPos`.  Returns the C++ `bool`
together with the scene after the call; an invalid move leaves the scene
untouched. -/
def movePiece (b : Board) (p : ChessPiece) (curR curC newR newC : Int) : Bool × Board :=
  if isValidMove b p curR curC newR newC then
    let b1 := capturedRemoved b p newR newC
    if isPawnPromotion p newR then
      (true, promotePawn b1 p curR curC newR newC)
    else
      (true, fun r c =>
        if r = curR ∧ c = curC then none
        else if r = newR ∧ c = newC then some p
        else b1 r c)
  else
    (false, b)

/-- `ChessBoard::setupPieces`, with each `new ChessPiece(sym, x, y, type,
isWhite)` recorded as `(y / 50, x / 50, piece)`: white back rank on row 0,
white pawns on row 1, black pawns on row 6, black back rank on row 7. -/
def setupPieces : List (Int × Int × ChessPiece) :=
  [ (0, 0, ⟨PieceType.Rook, true⟩), (0, 7, ⟨PieceType.Rook, true⟩),
    (0, 1, ⟨PieceType.Knight, true⟩), (0, 6, ⟨PieceType.Knight, true⟩),
    (0, 2, ⟨PieceType.Bishop, true⟩), (0, 5, ⟨PieceType.Bishop, true⟩),
    (0, 3, ⟨PieceType.Queen, true⟩), (0, 4, ⟨PieceType.King, true⟩),
    (1, 0, ⟨PieceType.Pawn, true⟩), (1, 1, ⟨PieceType.Pawn, true⟩),
    (1, 2, ⟨PieceType.Pawn, true⟩), (1, 3, ⟨PieceType.Pawn, true⟩),
    (1, 4, ⟨PieceType.Pawn, true⟩), (1, 5, ⟨PieceType.Pawn, true⟩),
    (1, 6, ⟨PieceType.Pawn, true⟩), (1, 7, ⟨PieceType.Pawn, true⟩),
    (7, 0, ⟨PieceType.Rook, false⟩), (7, 7, ⟨PieceType.Rook, false⟩),
    (7, 1, ⟨PieceType.Knight, false⟩), (7, 6, ⟨PieceType.Knight, false⟩),
    (7, 2, ⟨PieceType.Bishop, false⟩), (7, 5, ⟨PieceType.Bishop, false⟩),
    (7, 3, ⟨PieceType.Queen, false⟩), (7, 4, ⟨PieceType.King, false⟩),
    (6, 0, ⟨PieceType.Pawn, false⟩), (6, 1, ⟨PieceType.Pawn, false⟩),
    (6, 2, ⟨PieceType.Pawn, false⟩), (6, 3, ⟨PieceType.Pawn, false⟩),
    (6, 4, ⟨PieceType.Pawn, false⟩), (6, 5, ⟨PieceType.Pawn, false⟩),
    (6, 6, ⟨PieceType.Pawn, false⟩), (6, 7, ⟨PieceType.Pawn, false⟩) ]

/-- The board right after `setupPieces`: the piece listed at `(r, c)`, if any. -/
def startBoard : Board := fun r c =>
  (setupPieces.find? (fun e => e.1 == r && e.2.1 == c)).map (fun e => e.2.2)

/-- Two squares share a row, share a column, or lie on a common diagonal:
the condition under which the `isPathBlocked` loop reaches its exit square. -/
def alignedSquares (startR startC endR endC : Int) : Prop :=
  startR = endR ∨ startC = endC ∨ (endR - startR).natAbs = (endC - startC).natAbs

/-- A board with a single white pawn on square (6,4). -/
def lonePawnBoard : Board := fun r c =>
  if r = 6 ∧ c = 4 then some ⟨PieceType.Pawn, true⟩ else none

/-- A board with a single black pawn on square (1,4). -/
def loneBlackPawnBoard : Board := fun r c =>
  if r = 1 ∧ c = 4 then some ⟨PieceType.Pawn, false⟩ else none

/-- A board with a white pawn on (1,3) and a black rook on (0,4). -/
def capturePromotionBoard : Board := fun r c =>
  if r = 1 ∧ c = 3 then some ⟨PieceType.Pawn, true⟩
  else if r = 0 ∧ c = 4 then some ⟨PieceType.Rook, false⟩
  else none

/-- A board with a white rook on (0,0) and a black pawn on (0,5). -/
def rookCaptureBoard : Board := fun r c =>
  if r = 0 ∧ c = 0 then some ⟨PieceType.Rook, true⟩
  else if r = 0 ∧ c = 5 then some ⟨PieceType.Pawn, false⟩
  else none

/-! ## Helper lemmas -/

/-- The loop body of `isPathBlocked` returns within `fuel` iterations whenever
the current square is a whole number `d` of `(dR, dC)` steps away from the
exit square and `d < fuel`. -/
theorem pathWalk_isSome (b : Board) (eR eC dR dC : Int) :
    ∀ (fuel d : Nat) (r c : Int), d < fuel →
      eR - r = (d : Int) * dR → eC - c = (d : Int) * dC →
      (pathWalk b eR eC dR dC fuel r c).isSome = true := by
  intro fuel
  induction fuel with
  | zero => intro d r c hd _ _; exact absurd hd (Nat.not_lt_zero d)
  | succ n ih =>
    intro d r c hd hr hc
    unfold pathWalk
    split
    · rfl
    · rename_i hne
      cases hb : b r c with
      | some q => simp
      | none =>
        simp only
        cases d with
        | zero =>
          exact absurd ⟨by omega, by omega⟩ hne
        | succ d0 =>
          refine ih d0 (r + dR) (c + dC) (by omega) ?_ ?_
          · have hr2 : eR - r = ((d0 : Int) + 1) * dR := by push_cast at hr; linarith
            have : ((d0 : Int) + 1) * dR = (d0 : Int) * dR + dR := by ring
            linarith [hr2, this]
          · have hc2 : eC - c = ((d0 : Int) + 1) * dC := by push_cast at hc; linarith
            have : ((d0 : Int) + 1) * dC = (d0 : Int) * dC + dC := by ring
            linarith [hc2, this]

/-- On aligned squares the modelled `isPathBlocked` loop finishes. -/
theorem alignedSquares_walk_isSome (b : Board) (sR sC eR eC : Int)
    (h : alignedSquares sR sC eR eC) :
    (isPathBlockedWalk b sR sC eR eC).isSome = true := by
  unfold isPathBlockedWalk
  split
  · rfl
  · rename_i hne
    refine pathWalk_isSome b eR eC _ _ _ (pathFuel sR sC eR eC - 1) _ _ ?_ ?_ ?_
    · unfold pathFuel
      unfold alignedSquares at h
      omega
    · unfold pathFuel signDir
      unfold alignedSquares at h
      split_ifs <;> omega
    · unfold pathFuel signDir
      unfold alignedSquares at h
      split_ifs <;> omega

/-- A move that `isValidMove` accepts is never the null move. -/
theorem isValidMove_ne_of_valid (b : Board) (p : ChessPiece)
    (curR curC newR newC : Int)
    (h : isValidMove b p curR curC newR newC = true) :
    ¬(newR = curR ∧ newC = curC) := by
  intro hc
  unfold isValidMove at h
  rw [if_pos hc] at h
  exact Bool.false_ne_true h

/-! ## Claim theorems -/

/-- C1: the claim says every Rook/Bishop/Queen move over an occupied
intervening square is rejected.  The code violates it: on the starting
position the black Rook on (7,0) may "move" to (0,0) even though (6,0)
holds a pawn, because the Rook case guards its path check with the signed
`rowDiff > 1 || colDiff > 1` and both diffs here are non-positive. -/
theorem rook_skips_path_check_on_negative_moves :
    isValidMove startBoard ⟨PieceType.Rook, false⟩ 7 0 0 0 = true ∧
    isPathBlocked startBoard 7 0 0 0 = true ∧
    startBoard 7 0 = some ⟨PieceType.Rook, false⟩ ∧
    startBoard 6 0 = some ⟨PieceType.Pawn, false⟩ ∧
    startBoard 1 0 = some ⟨PieceType.Pawn, true⟩ := by decide

/-- C2: the claim says a White pawn advances toward decreasing rows, with the
double advance from row 6, and that (6,4) → (4,4) is legal from the start.
The code does the opposite: a lone White pawn on (6,4) may not move to (5,4)
or (4,4) but may move to (7,4) and even (8,4) (off the board), and in the
code's starting position (6,4) holds a Black pawn while the White pawns sit
on row 1. -/
theorem whitePawn_moves_toward_increasing_rows :
    isValidMove lonePawnBoard ⟨PieceType.Pawn, true⟩ 6 4 4 4 = false ∧
    isValidMove lonePawnBoard ⟨PieceType.Pawn, true⟩ 6 4 5 4 = false ∧
    isValidMove lonePawnBoard ⟨PieceType.Pawn, true⟩ 6 4 7 4 = true ∧
    isValidMove lonePawnBoard ⟨PieceType.Pawn, true⟩ 6 4 8 4 = true ∧
    startBoard 6 4 = some ⟨PieceType.Pawn, false⟩ ∧
    startBoard 1 4 = some ⟨PieceType.Pawn, true⟩ := by decide

/-- C5: a destination occupied by a piece of the mover's colour is rejected,
for every piece kind, by the central check that precedes the per-kind
dispatch. -/
theorem sameColor_dest_rejected (b : Board) (p q : ChessPiece)
    (curR curC newR newC : Int)
    (hq : b newR newC = some q) (hc : q.isWhitePiece = p.isWhitePiece) :
    isValidMove b p curR curC newR newC = false := by
  unfold isValidMove
  split
  · rfl
  · rw [hq]
    simp [hc]

/-- Witness for `sameColor_dest_rejected`: on the starting position the
white Rook on (0,0) may not move onto the white pawn on (1,0). -/
theorem sameColor_dest_rejected_witness :
    startBoard 1 0 = some ⟨PieceType.Pawn, true⟩ ∧
    isValidMove startBoard ⟨PieceType.Rook, true⟩ 0 0 1 0 = false :=
  ⟨by decide,
    sameColor_dest_rejected startBoard ⟨PieceType.Rook, true⟩ ⟨PieceType.Pawn, true⟩
      0 0 1 0 (by decide) rfl⟩

/-- C6: a move whose destination is the piece's current square is rejected
for every board state and every piece. -/
theorem null_move_rejected (b : Board) (p : ChessPiece) (r c : Int) :
    isValidMove b p r c r c = false := by
  simp [isValidMove]

/-- C10: the `isPathBlocked` loop finishes on every pair of distinct aligned
squares (first conjunct), and each guard under which `isValidMove`,
`isValidMoveWhitePawn` or `isValidMoveBlackPawn` calls `isPathBlocked`
forces alignment (remaining conjuncts: Rook's straightness test, Bishop's
diagonal test, Queen's test, King's distance bound, and the pawns'
`colDiff == 0`), so every legality query terminates. -/
theorem pathBlocked_terminates :
    (∀ (b : Board) (sR sC eR eC : Int), alignedSquares sR sC eR eC →
        (isPathBlockedWalk b sR sC eR eC).isSome = true) ∧
    (∀ curR curC newR newC : Int,
        (¬(newR ≠ curR ∧ newC ≠ curC) → alignedSquares curR curC newR newC) ∧
        ((newR - curR).natAbs = (newC - curC).natAbs →
          alignedSquares curR curC newR newC) ∧
        (((newR - curR).natAbs = (newC - curC).natAbs ∨
            newR - curR = 0 ∨ newC - curC = 0) →
          alignedSquares curR curC newR newC) ∧
        ((newR - curR).natAbs ≤ 1 ∧ (newC - curC).natAbs ≤ 1 →
          alignedSquares curR curC newR newC) ∧
        (newC - curC = 0 → alignedSquares curR curC newR newC)) := by
  constructor
  · exact fun b sR sC eR eC h => alignedSquares_walk_isSome b sR sC eR eC h
  · intro curR curC newR newC
    unfold alignedSquares
    refine ⟨?_, ?_, ?_, ?_, ?_⟩ <;> intro h <;> omega

/-- Witness for `pathBlocked_terminates`: the walk along the blocked a-file
of the starting position finishes, and the Rook guard at (3,4) → (3,9)
yields an aligned pair. -/
theorem pathBlocked_terminates_witness :
    (alignedSquares 7 0 0 0 ∧ (isPathBlockedWalk startBoard 7 0 0 0).isSome = true) ∧
    (¬((3:Int) ≠ 3 ∧ (9:Int) ≠ 4) ∧ alignedSquares 3 4 3 9) :=
  ⟨⟨Or.inr (Or.inl rfl),
      pathBlocked_terminates.1 startBoard 7 0 0 0 (Or.inr (Or.inl rfl))⟩,
    ⟨by simp,
      ((pathBlocked_terminates.2 3 4 3 9).1 (by simp))⟩⟩

/-- C3 counterexample: promotion is not restricted to "White on row 0 /
Black on row 7".  A lone Black pawn on (1,4) legally steps to (0,4), and the
code promotes it there to a Black Queen. -/
theorem promotion_ignores_color :
    isValidMove loneBlackPawnBoard ⟨PieceType.Pawn, false⟩ 1 4 0 4 = true ∧
    (movePiece loneBlackPawnBoard ⟨PieceType.Pawn, false⟩ 1 4 0 4).1 = true ∧
    (movePiece loneBlackPawnBoard ⟨PieceType.Pawn, false⟩ 1 4 0 4).2 0 4 =
      some ⟨PieceType.Queen, false⟩ := by decide

/-- C3 amended: promotion happens on a successful `movePiece` exactly when
the mover is a Pawn and the destination row is 0 or 7, regardless of colour;
it puts a Queen of the mover's colour on the destination, empties the source
square, and touches no other square. -/
theorem promotion_iff_pawn_back_rank (b : Board) (p : ChessPiece)
    (curR curC newR newC : Int)
    (hv : isValidMove b p curR curC newR newC = true) :
    ((p.pieceType = PieceType.Pawn ∧ (newR = 0 ∨ newR = 7)) →
      (movePiece b p curR curC newR newC).2 newR newC =
          some ⟨PieceType.Queen, p.isWhitePiece⟩ ∧
        (movePiece b p curR curC newR newC).2 curR curC = none ∧
        ∀ r c, ¬(r = curR ∧ c = curC) → ¬(r = newR ∧ c = newC) →
          (movePiece b p curR curC newR newC).2 r c = b r c) ∧
    (¬(p.pieceType = PieceType.Pawn ∧ (newR = 0 ∨ newR = 7)) →
      (movePiece b p curR curC newR newC).2 newR newC = some p) := by
  have hne := isValidMove_ne_of_valid b p curR curC newR newC hv
  constructor
  · intro hpr
    have hpb : isPawnPromotion p newR = true := by
      unfold isPawnPromotion
      rw [if_pos hpr]
    refine ⟨?_, ?_, ?_⟩
    · simp [movePiece, hv, hpb, promotePawn, hne]
    · simp [movePiece, hv, hpb, promotePawn]
    · intro r c hrc1 hrc2
      simp [movePiece, hv, hpb, promotePawn, capturedRemoved, hrc1, hrc2]
  · intro hpr
    have hpb : isPawnPromotion p newR = false := by
      unfold isPawnPromotion
      rw [if_neg hpr]
    simp [movePiece, hv, hpb, hne]

/-- Witness for `promotion_iff_pawn_back_rank` at the Black-pawn move
(1,4) → (0,4): a Black Queen lands on (0,4), the source empties, and the
untouched square (5,5) keeps its content. -/
theorem promotion_iff_pawn_back_rank_witness :
    isValidMove loneBlackPawnBoard ⟨PieceType.Pawn, false⟩ 1 4 0 4 = true ∧
    (movePiece loneBlackPawnBoard ⟨PieceType.Pawn, false⟩ 1 4 0 4).2 0 4 =
      some ⟨PieceType.Queen, false⟩ ∧
    (movePiece loneBlackPawnBoard ⟨PieceType.Pawn, false⟩ 1 4 0 4).2 1 4 = none ∧
    (movePiece loneBlackPawnBoard ⟨PieceType.Pawn, false⟩ 1 4 0 4).2 5 5 =
      loneBlackPawnBoard 5 5 :=
  ⟨by decide,
    ((promotion_iff_pawn_back_rank loneBlackPawnBoard ⟨PieceType.Pawn, false⟩
        1 4 0 4 (by decide)).1 ⟨rfl, Or.inl rfl⟩).1,
    ((promotion_iff_pawn_back_rank loneBlackPawnBoard ⟨PieceType.Pawn, false⟩
        1 4 0 4 (by decide)).1 ⟨rfl, Or.inl rfl⟩).2.1,
    ((promotion_iff_pawn_back_rank loneBlackPawnBoard ⟨PieceType.Pawn, false⟩
        1 4 0 4 (by decide)).1 ⟨rfl, Or.inl rfl⟩).2.2 5 5 (by simp) (by simp)⟩

/-- C4 counterexample: the starting position's white Knight on (0,1) has the
L-shaped destination (1,3), yet `isValidMove` rejects the move because (1,3)
holds a same-colour pawn — so "legal for exactly the L-shaped offsets" fails
as stated. -/
theorem knight_L_square_rejected :
    ((1 : Int) - 0).natAbs = 1 ∧ ((3 : Int) - 1).natAbs = 2 ∧
    startBoard 1 3 = some ⟨PieceType.Pawn, true⟩ ∧
    isValidMove startBoard ⟨PieceType.Knight, true⟩ 0 1 1 3 = false := by decide

/-- C4 amended: for a Knight, `isValidMove` holds exactly on destinations at
L-shaped offsets whose square does not hold a same-colour piece; intervening
occupancy plays no role (the board appears in the right-hand side only
through the destination square). -/
theorem knight_legal_iff (b : Board) (p : ChessPiece)
    (curR curC newR newC : Int) (hk : p.pieceType = PieceType.Knight) :
    isValidMove b p curR curC newR newC = true ↔
      ((((newR - curR).natAbs = 2 ∧ (newC - curC).natAbs = 1) ∨
        ((newR - curR).natAbs = 1 ∧ (newC - curC).natAbs = 2)) ∧
       (b newR newC).any (fun q => q.isWhitePiece == p.isWhitePiece) = false) := by
  unfold isValidMove
  simp only [hk]
  split_ifs with h1 h2 h3
  · constructor
    · intro h; exact absurd h (by simp)
    · rintro ⟨hL, _⟩
      exfalso
      obtain ⟨hr, hc⟩ := h1
      omega
  · simp only [Bool.false_eq_true, false_iff]
    rintro ⟨_, hany⟩
    exact absurd h2 (by simp [hany])
  · simp only [true_iff, h3, true_and]
    exact Bool.eq_false_iff.mpr h2
  · simp only [Bool.false_eq_true, false_iff]
    rintro ⟨hL, _⟩
    exact h3 hL

/-- Witness for `knight_legal_iff`: on the starting position the white
Knight's move (0,1) → (2,2) is legal. -/
theorem knight_legal_iff_witness :
    isValidMove startBoard ⟨PieceType.Knight, true⟩ 0 1 2 2 = true :=
  (knight_legal_iff startBoard ⟨PieceType.Knight, true⟩ 0 1 2 2 rfl).mpr (by decide)

/-- C7: `movePiece` is atomic: an invalid move returns `false` and leaves the
board untouched; a valid move returns `true` and applies the whole effect —
destination holds the mover (or the promotion Queen), the source empties,
and no other square changes. -/
theorem movePiece_atomic (b : Board) (p : ChessPiece) (curR curC newR newC : Int) :
    (isValidMove b p curR curC newR newC = false →
      movePiece b p curR curC newR newC = (false, b)) ∧
    (isValidMove b p curR curC newR newC = true →
      (movePiece b p curR curC newR newC).1 = true ∧
      (movePiece b p curR curC newR newC).2 curR curC = none ∧
      (movePiece b p curR curC newR newC).2 newR newC =
        (if isPawnPromotion p newR = true then
          some ⟨PieceType.Queen, p.isWhitePiece⟩ else some p) ∧
      ∀ r c, ¬(r = curR ∧ c = curC) → ¬(r = newR ∧ c = newC) →
        (movePiece b p curR curC newR newC).2 r c = b r c) := by
  constructor
  · intro h
    simp [movePiece, h]
  · intro h
    have hne := isValidMove_ne_of_valid b p curR curC newR newC h
    refine ⟨by cases hp : isPawnPromotion p newR <;> simp [movePiece, h, hp], ?_, ?_, ?_⟩
    · cases hp : isPawnPromotion p newR with
      | true => simp [movePiece, h, hp, promotePawn]
      | false => simp [movePiece, h, hp]
    · cases hp : isPawnPromotion p newR with
      | true => simp [movePiece, h, hp, promotePawn, hne]
      | false => simp [movePiece, h, hp, hne]
    · intro r c h1 h2
      cases hp : isPawnPromotion p newR with
      | true => simp [movePiece, h, hp, promotePawn, capturedRemoved, h1, h2]
      | false => simp [movePiece, h, hp, capturedRemoved, h1, h2]

/-- Witness for `movePiece_atomic`: the white Knight's opening move
(0,1) → (2,2) on the starting position succeeds and empties (0,1). -/
theorem movePiece_atomic_witness :
    isValidMove startBoard ⟨PieceType.Knight, true⟩ 0 1 2 2 = true ∧
    (movePiece startBoard ⟨PieceType.Knight, true⟩ 0 1 2 2).1 = true ∧
    (movePiece startBoard ⟨PieceType.Knight, true⟩ 0 1 2 2).2 0 1 = none :=
  ⟨by decide,
    ((movePiece_atomic startBoard ⟨PieceType.Knight, true⟩ 0 1 2 2).2 (by decide)).1,
    ((movePiece_atomic startBoard ⟨PieceType.Knight, true⟩ 0 1 2 2).2 (by decide)).2.1⟩

/-- C8 counterexample: a capture that is also a promotion removes two pieces
and puts a Queen, not the mover, on the destination.  The white pawn on
(1,3) captures the black rook on (0,4); afterwards (0,4) holds a white
Queen (not the pawn) and the pawn is gone from (1,3). -/
theorem capture_promotion_removes_two :
    isValidMove capturePromotionBoard ⟨PieceType.Pawn, true⟩ 1 3 0 4 = true ∧
    capturePromotionBoard 1 3 = some ⟨PieceType.Pawn, true⟩ ∧
    capturePromotionBoard 0 4 = some ⟨PieceType.Rook, false⟩ ∧
    (movePiece capturePromotionBoard ⟨PieceType.Pawn, true⟩ 1 3 0 4).2 0 4 =
      some ⟨PieceType.Queen, true⟩ ∧
    (movePiece capturePromotionBoard ⟨PieceType.Pawn, true⟩ 1 3 0 4).2 1 3 =
      none := by decide

/-- C8 amended: a legal, non-promoting move onto an opposite-colour piece
removes exactly that piece: the mover ends on the destination, the source
empties, and every other square keeps its occupant. -/
theorem capture_frame (b : Board) (p q : ChessPiece) (curR curC newR newC : Int)
    (hv : isValidMove b p curR curC newR newC = true)
    (hsrc : b curR curC = some p)
    (hq : b newR newC = some q)
    (hop : q.isWhitePiece ≠ p.isWhitePiece)
    (hnp : isPawnPromotion p newR = false) :
    (movePiece b p curR curC newR newC).1 = true ∧
    (movePiece b p curR curC newR newC).2 newR newC = some p ∧
    (movePiece b p curR curC newR newC).2 curR curC = none ∧
    ∀ r c, ¬(r = curR ∧ c = curC) → ¬(r = newR ∧ c = newC) →
      (movePiece b p curR curC newR newC).2 r c = b r c := by
  have hne := isValidMove_ne_of_valid b p curR curC newR newC hv
  refine ⟨by simp [movePiece, hv, hnp], ?_, ?_, ?_⟩
  · simp [movePiece, hv, hnp, hne]
  · simp [movePiece, hv, hnp]
  · intro r c h1 h2
    simp [movePiece, hv, hnp, capturedRemoved, h1, h2]

/-- Witness for `capture_frame`: the white rook on (0,0) captures the black
pawn on (0,5) over an empty rank; the rook lands on (0,5), (0,0) empties,
and the unrelated square (3,3) is untouched. -/
theorem capture_frame_witness :
    isValidMove rookCaptureBoard ⟨PieceType.Rook, true⟩ 0 0 0 5 = true ∧
    rookCaptureBoard 0 0 = some ⟨PieceType.Rook, true⟩ ∧
    rookCaptureBoard 0 5 = some ⟨PieceType.Pawn, false⟩ ∧
    isPawnPromotion ⟨PieceType.Rook, true⟩ 0 = false ∧
    (movePiece rookCaptureBoard ⟨PieceType.Rook, true⟩ 0 0 0 5).2 0 5 =
      some ⟨PieceType.Rook, true⟩ ∧
    (movePiece rookCaptureBoard ⟨PieceType.Rook, true⟩ 0 0 0 5).2 0 0 = none ∧
    (movePiece rookCaptureBoard ⟨PieceType.Rook, true⟩ 0 0 0 5).2 3 3 =
      rookCaptureBoard 3 3 :=
  ⟨by decide, by decide, by decide, by decide,
    (capture_frame rookCaptureBoard ⟨PieceType.Rook, true⟩ ⟨PieceType.Pawn, false⟩
      0 0 0 5 (by decide) (by decide) (by decide) (by decide) (by decide)).2.1,
    (capture_frame rookCaptureBoard ⟨PieceType.Rook, true⟩ ⟨PieceType.Pawn, false⟩
      0 0 0 5 (by decide) (by decide) (by decide) (by decide) (by decide)).2.2.1,
    (capture_frame rookCaptureBoard ⟨PieceType.Rook, true⟩ ⟨PieceType.Pawn, false⟩
      0 0 0 5 (by decide) (by decide) (by decide) (by decide) (by decide)).2.2.2
      3 3 (by simp) (by simp)⟩

/-- C9: a legal White-pawn move with unchanged column has row delta +1 (or
+2 with the source on row 6), while a legal White-pawn move that changes
column has row delta -1: the code's White pawn captures opposite to its
forward direction. -/
theorem whitePawn_capture_direction (b : Board) (p : ChessPiece)
    (curR curC newR newC : Int)
    (hp : p.pieceType = PieceType.Pawn) (hw : p.isWhitePiece = true)
    (hv : isValidMove b p curR curC newR newC = true) :
    (newC = curC → newR - curR = 1 ∨ (newR - curR = 2 ∧ curR = 6)) ∧
    (newC ≠ curC → newR - curR = -1) := by
  unfold isValidMove at hv
  split at hv
  · exact absurd hv (by simp)
  · simp only [hp, hw, if_true] at hv
    split at hv
    · exact absurd hv (by simp)
    · simp only [isValidMoveWhitePawn] at hv
      split_ifs at hv with h1 h2
      · obtain ⟨hc0, _, hfwd⟩ := h1
        constructor
        · intro _
          rcases hfwd with h | ⟨ha, hb, _⟩
          · exact Or.inl h
          · exact Or.inr ⟨ha, hb⟩
        · intro hcne
          exact absurd (by omega : newC = curC) hcne
      · obtain ⟨hc1, hrm, _⟩ := h2
        constructor
        · intro hceq
          exfalso
          omega
        · intro _
          exact hrm

/-- Witness for `whitePawn_capture_direction`: the lone White pawn's legal
move (6,4) → (7,4). -/
theorem whitePawn_capture_direction_witness :
    isValidMove lonePawnBoard ⟨PieceType.Pawn, true⟩ 6 4 7 4 = true ∧
    ((4 : Int) = 4 → (7 : Int) - 6 = 1 ∨ ((7 : Int) - 6 = 2 ∧ (6 : Int) = 6)) ∧
    ((4 : Int) ≠ 4 → (7 : Int) - 6 = -1) :=
  ⟨by decide,
    (whitePawn_capture_direction lonePawnBoard ⟨PieceType.Pawn, true⟩ 6 4 7 4
      rfl rfl (by decide)).1,
    (whitePawn_capture_direction lonePawnBoard ⟨PieceType.Pawn, true⟩ 6 4 7 4
      rfl rfl (by decide)).2⟩
